import Mathlib

/-!
# Verification of the `compress_pickle` serialization facade

A shallow embedding of `src/compress_pickle/compress_pickle.py`: the four
facade entry points `dump`, `load`, `dumps`, `loads` are translated into
executable Lean functions over an explicit world of in-memory streams and a
file system.  The helper module (`validate_compression`, `preprocess_path`,
`open_compression_stream`, the mode tables) and the external libraries
(`pickle`, `gzip`, `bz2`, `lzma`, `zipfile`) are not part of the source tree;
they are modelled from the specification, each such definition carrying a
doc comment that says so.

Bytes are modelled as `List Nat`; Python objects as the inductive `PyObj`.
-/

namespace CompressPickle

/-! ## Byte-level encodings

Building blocks for the modelled external serializer and archive formats:
a length-prefixed base-256 encoding of naturals, and encodings of integers,
characters and strings built on top of it.  All functions are structurally
recursive so that concrete instances evaluate inside the kernel. -/

/-- Little-endian base-256 digits of `n`, computed with explicit fuel so the
recursion is structural (`fuel ≥ n` makes the result exact). -/

def toDigits : Nat → Nat → List Nat
  | _, 0 => []
  | 0, _ + 1 => []
  | fuel + 1, n + 1 => (n + 1) % 256 :: toDigits fuel ((n + 1) / 256)

/-- Recombine little-endian base-256 digits into a natural number. -/

def ofDigits : List Nat → Nat
  | [] => 0
  | d :: ds => d + 256 * ofDigits ds

/-- Length-prefixed base-256 encoding of a natural number. -/

def encNat (n : Nat) : List Nat :=
  (toDigits n n).length :: toDigits n n

/-- Decode a length-prefixed natural, returning the value and the remaining
input. -/

def decNat : List Nat → Option (Nat × List Nat)
  | [] => none
  | l :: r => if l ≤ r.length then some (ofDigits (r.take l), r.drop l) else none

/-- Sign-and-magnitude encoding of an integer. -/

def encInt (i : Int) : List Nat :=
  if 0 ≤ i then 0 :: encNat i.toNat else 1 :: encNat (-i).toNat

/-- Decode an integer encoded by `encInt`. -/

def decInt : List Nat → Option (Int × List Nat)
  | 0 :: r => (decNat r).map fun p => ((p.1 : Int), p.2)
  | 1 :: r => (decNat r).map fun p => (-(p.1 : Int), p.2)
  | _ => none

/-- Encode a list of characters as the concatenation of their code points. -/

def encChars : List Char → List Nat
  | [] => []
  | c :: cs => encNat c.toNat ++ encChars cs

/-- Decode `k` characters encoded by `encChars`. -/

def decChars : Nat → List Nat → Option (List Char × List Nat)
  | 0, r => some ([], r)
  | k + 1, r => do
    let (n, r') ← decNat r
    let (cs, r'') ← decChars k r'
    some (Char.ofNat n :: cs, r'')

/-- Length-prefixed encoding of a string via its character codes. -/

def encStr (s : String) : List Nat :=
  encNat s.data.length ++ encChars s.data

/-- Decode a string encoded by `encStr`. -/

def decStr (bs : List Nat) : Option (String × List Nat) := do
  let (n, r) ← decNat bs
  let (cs, r') ← decChars n r
  some (String.mk cs, r')

/-! ## The modelled external serializer -/

/-- The universe of Python values the model serializes: primitives (`None`,
booleans, integers, strings) and nested containers (pairs), plus a value the
serializer rejects, standing for a non-serializable object. -/

inductive PyObj where
  | pnone : PyObj
  | pbool : Bool → PyObj
  | pint : Int → PyObj
  | pstr : String → PyObj
  | ppair : PyObj → PyObj → PyObj
  | unserializable : PyObj
deriving DecidableEq, Repr

/-- Modelled from the spec: the external generic serializer (`pickle.dump` /
`pickle.dumps`), which is not part of the source tree.  It turns an object
graph into a tag-prefixed byte sequence and fails on a non-serializable
value; the spec only requires it to be a total invertible encoding on
serializable values. -/

def pDump : PyObj → Option (List Nat)
  | .pnone => some [0]
  | .pbool false => some [1]
  | .pbool true => some [2]
  | .pint i => some (3 :: encInt i)
  | .pstr s => some (4 :: encStr s)
  | .ppair a b => do
    let ba ← pDump a
    let bb ← pDump b
    some (5 :: (ba ++ bb))
  | .unserializable => none

/-- Number of constructors in a `PyObj`; a fuel bound for the decoder. -/

def nodes : PyObj → Nat
  | .ppair a b => 1 + nodes a + nodes b
  | _ => 1

/-- Modelled from the spec: the external generic decoder (`pickle.load`),
which is not part of the source tree.  It parses one object from the front
of a byte sequence and returns it with the unconsumed remainder; `fuel`
bounds the recursion depth and makes the definition structural. -/

def pLoad : Nat → List Nat → Option (PyObj × List Nat)
  | 0, _ => none
  | _ + 1, [] => none
  | fuel + 1, t :: r =>
    match t with
    | 0 => some (.pnone, r)
    | 1 => some (.pbool false, r)
    | 2 => some (.pbool true, r)
    | 3 => (decInt r).map fun p => (.pint p.1, p.2)
    | 4 => (decStr r).map fun p => (.pstr p.1, p.2)
    | 5 => do
      let (a, r') ← pLoad fuel r
      let (b, r'') ← pLoad fuel r'
      some (.ppair a b, r'')
    | _ => none

/-! ## Scheme registry, validation and path resolution

`validate_compression`, `preprocess_path` and the mode tables live in the
helper module `compress_pickle/utils.py`, which is not part of the source
tree; they are modelled from the specification (§4.1, §4.2, §7). -/

/-- The error taxonomy of the spec (§7) plus the propagated external
failures (underlying I/O errors and serializer errors). -/

inductive Err where
  | unknownScheme : String → Err
  | unrecognizedExtension : String → Err
  | invalidArgument : Err
  | serialization : Err
  | deserialization : Err
  | ioError : Err
deriving DecidableEq, Repr

/-- The registered compression schemes (spec §4.1): the no-op passthrough
(Python `None`), the raw passthrough marked by a specific extension
(`"pickle"`), the gzip-, bzip2-, LZMA- and zip-archive-style compressors. -/

inductive Comp where
  | nocomp : Comp
  | pickle : Comp
  | gzip : Comp
  | bz2 : Comp
  | lzma : Comp
  | zipfile : Comp
deriving DecidableEq, Repr

/-- The Python `compression` argument: either `None` or a string (which may
be `"infer"`, a registered name, or an unknown name). -/

inductive CompArg where
  | pynone : CompArg
  | str : String → CompArg
deriving DecidableEq, Repr

/-- Modelled from the spec: the registry's scheme names (§4.1). -/

def known_compression_names : List String :=
  ["pickle", "gzip", "bz2", "lzma", "zipfile"]

/-- Look a registered name up in the registry. -/

def compOfName : String → Option Comp
  | "pickle" => some .pickle
  | "gzip" => some .gzip
  | "bz2" => some .bz2
  | "lzma" => some .lzma
  | "zipfile" => some .zipfile
  | _ => none

/-- Modelled from the spec: `utils.validate_compression` (missing from the
source tree).  A registered name or `None` is returned unchanged; `"infer"`
is accepted only when `infer_is_valid` (dump/load) and rejected with
`InvalidArgumentError` for the bytes-based operations (§7); any other name
fails with `UnknownSchemeError`. -/

def validate_compression (c : CompArg) (infer_is_valid : Bool) : Except Err CompArg :=
  match c with
  | .pynone => .ok c
  | .str s =>
    if (compOfName s).isSome then .ok c
    else if s = "infer" then
      if infer_is_valid then .ok c else .error .invalidArgument
    else .error (.unknownScheme s)

/-- Modelled from the spec: the registry's canonical extension per scheme
(§4.1, dump docstring: the raw fallback uses ".pkl"). -/

def defaultExtension : Comp → String
  | .nocomp => "pkl"
  | .pickle => "pkl"
  | .gzip => "gz"
  | .bz2 => "bz2"
  | .lzma => "xz"
  | .zipfile => "zip"

/-- Modelled from the spec: `reverse_lookup` of the registry (§4.1) — exact
match of the extension against the known list, registration order. -/

def compOfExtension : String → Option Comp
  | "pkl" => some .pickle
  | "gz" => some .gzip
  | "bz2" => some .bz2
  | "xz" => some .lzma
  | "zip" => some .zipfile
  | _ => none

/-- Split a character list at its last `'.'`: `some (stem, ext)` where the
dot itself belongs to neither part, or `none` when no dot occurs. -/

def lastDotSplit : List Char → Option (List Char × List Char)
  | [] => none
  | c :: cs =>
    match lastDotSplit cs with
    | some (stem, ext) => some (c :: stem, ext)
    | none => if c = '.' then some ([], cs) else none

/-- The extension of a path (text after the last dot; `""` when none). -/

def extOf (p : String) : String :=
  match lastDotSplit p.data with
  | some (_, ext) => String.mk ext
  | none => ""

/-- The path with its extension (if any) replaced by the scheme's canonical
extension. -/

def setDefaultExt (p : String) (c : Comp) : String :=
  match lastDotSplit p.data with
  | some (stem, _) => String.mk stem ++ "." ++ defaultExtension c
  | none => p ++ "." ++ defaultExtension c

/-- The part of a path after the last `'/'`. -/

def basename (p : String) : String :=
  match lastDotSplit (p.data.map fun c => if c = '/' then '.' else c) with
  | some (_, rest) => String.mk (p.data.drop (p.data.length - rest.length))
  | none => p

/-- Default in-archive member name for archive-style schemes: the base
filename with its extension stripped (spec §4.3). -/

def arcnameOf (p : String) : String :=
  match lastDotSplit (basename p).data with
  | some (stem, _) => String.mk stem
  | none => basename p

/-- A `path` argument of the facade: a filesystem path or an already-open
caller-supplied stream, identified by its index in the world. -/

inductive PathArg where
  | path : String → PathArg
  | stream : Nat → PathArg
deriving DecidableEq, Repr

/-- Modelled from the spec: `utils.preprocess_path` (missing from the source
tree), the Path/Extension Resolver of §4.2.  Returns the effective path, the
effective scheme, the caller stream (when one was supplied) and the warnings
emitted, or the resolution error. -/

def preprocess_path (p : PathArg) (compression : CompArg)
    (unhandled_extensions : String) (set_default_extension : Bool) :
    Except Err (Option String × Comp × Option Nat × List String) :=
  match p with
  | .stream sid =>
    match compression with
    | .pynone => .ok (none, .nocomp, some sid, [])
    | .str s =>
      if s = "infer" then .error .invalidArgument
      else
        match compOfName s with
        | some c => .ok (none, c, some sid, [])
        | none => .error (.unknownScheme s)
  | .path str =>
    match compression with
    | .pynone =>
      .ok (some (if set_default_extension then setDefaultExt str .nocomp else str),
        .nocomp, none, [])
    | .str s =>
      if s = "infer" then
        match compOfExtension (extOf str) with
        | some c => .ok (some str, c, none, [])
        | none =>
          if unhandled_extensions = "raise" then
            .error (.unrecognizedExtension (extOf str))
          else if unhandled_extensions = "ignore" then
            .ok (some str, .nocomp, none, [])
          else if unhandled_extensions = "warn" then
            .ok (some str, .nocomp, none,
              ["unknown extension, falling back to uncompressed"])
          else .error .invalidArgument
      else
        match compOfName s with
        | some c =>
          .ok (some (if set_default_extension then setDefaultExt str c else str),
            c, none, [])
        | none => .error (.unknownScheme s)

/-- Modelled from the spec: `utils.get_compression_write_mode` (missing from
the source tree) — the scheme's default write mode. -/

def get_compression_write_mode : Comp → String
  | .zipfile => "w"
  | _ => "wb"

/-- Modelled from the spec: `utils.get_compression_read_mode` (missing from
the source tree) — the scheme's default read mode. -/

def get_compression_read_mode : Comp → String
  | .zipfile => "r"
  | _ => "rb"

/-! ## Streams, the file system and the compression wrappers

Streams model `io.BytesIO`, plain binary files and the compression-filter /
archive wrappers around them.  A write-mode stream accumulates the bytes the
serializer writes; closing it applies its filter and flushes the result into
its sink (a file or another stream).  The compression formats themselves are
external libraries, modelled as magic-byte envelopes (spec §6: "the on-disk
artifact is ... wrapped by the delegated compression library's native
container format"). -/

/-- Where a stream's contents go when it is closed in write mode. -/

inductive Sink where
  | file : String → Sink
  | stream : Nat → Sink
  | none : Sink
deriving DecidableEq, Repr

/-- An open (or closed) stream: buffered bytes, current position, closed
flag, an optional compression filter `(scheme, member name)` applied when
flushing / reading, the sink flushed into on close, and whether the stream
is in write mode (only write-mode streams flush). -/

structure StreamRec where
  data : List Nat
  pos : Nat
  closed : Bool
  filter : Option (Comp × Option String)
  sink : Sink
  wmode : Bool
deriving DecidableEq, Repr

/-- A plain open `io.BytesIO` holding `bs`, positioned at the start. -/

def freshBuf (bs : List Nat) : StreamRec :=
  ⟨bs, 0, false, none, .none, true⟩

/-- The world a call runs in: file system contents and the stream heap
(streams are identified by their index; closing never removes them, so
closedness stays observable). -/

structure World where
  fs : List (String × List Nat)
  streams : List StreamRec
deriving DecidableEq, Repr

def World.empty : World := ⟨[], []⟩

/-- Read a stream from the heap (a dummy closed stream when out of range;
the facade never dereferences a dangling index). -/

def getStream (w : World) (i : Nat) : StreamRec :=
  w.streams.getD i ⟨[], 0, true, none, .none, false⟩

def setStream (w : World) (i : Nat) (s : StreamRec) : World :=
  ⟨w.fs, w.streams.set i s⟩

/-- Append a fresh stream to the heap, returning its index. -/

def newStream (w : World) (s : StreamRec) : Nat × World :=
  (w.streams.length, ⟨w.fs, w.streams ++ [s]⟩)

/-- Look a file up in the file system. -/

def fsGet (w : World) (p : String) : Option (List Nat) :=
  (w.fs.find? fun e => e.1 = p).map Prod.snd

/-- Write a file (prepending shadows any earlier entry). -/

def fsSet (w : World) (p : String) (bs : List Nat) : World :=
  ⟨(p, bs) :: w.fs, w.streams⟩

/-- `BytesIO.write` semantics: overwrite at the current position and advance
it. -/

def writeBytes (w : World) (i : Nat) (bs : List Nat) : World :=
  let s := getStream w i
  setStream w i { s with
    data := s.data.take s.pos ++ bs ++ s.data.drop (s.pos + bs.length)
    pos := s.pos + bs.length }

/-- `BytesIO.getvalue` semantics. -/

def getvalue (w : World) (i : Nat) : List Nat :=
  (getStream w i).data

/-- Modelled from the spec: the external compression libraries' native
envelopes (§6).  Filter-style schemes prefix their magic bytes; the
zip-archive scheme additionally records the single member's name. -/

def compressBytes (c : Comp) (arc : Option String) (bs : List Nat) : List Nat :=
  match c with
  | .gzip => 31 :: 139 :: bs
  | .bz2 => 66 :: 90 :: 104 :: bs
  | .lzma => 253 :: 55 :: 122 :: 88 :: 90 :: 0 :: bs
  | .zipfile => 80 :: 75 :: (encStr (arc.getD "default") ++ bs)
  | _ => bs

/-- Modelled from the spec: the external decompressors.  The envelope is
checked and stripped; for the zip-archive scheme the single member's
recorded name must be the one the facade asks for (a mismatch propagates as
an underlying I/O error, §4.3). -/

def decompressBytes (c : Comp) (arc : Option String) (bs : List Nat) :
    Except Err (List Nat) :=
  match c with
  | .gzip =>
    match bs with
    | 31 :: 139 :: rest => .ok rest
    | _ => .error .ioError
  | .bz2 =>
    match bs with
    | 66 :: 90 :: 104 :: rest => .ok rest
    | _ => .error .ioError
  | .lzma =>
    match bs with
    | 253 :: 55 :: 122 :: 88 :: 90 :: 0 :: rest => .ok rest
    | _ => .error .ioError
  | .zipfile =>
    match bs with
    | 80 :: 75 :: rest =>
      match decStr rest with
      | some (name, payload) =>
        if name = arc.getD "default" then .ok payload else .error .ioError
      | none => .error .ioError
    | _ => .error .ioError
  | _ => .ok bs

/-- Apply a stream's filter to its buffered bytes when flushing. -/

def applyFilter (f : Option (Comp × Option String)) (bs : List Nat) : List Nat :=
  match f with
  | none => bs
  | some (c, arc) => compressBytes c arc bs

/-- Close a stream: in write mode, apply its filter and flush the result
into its sink (writing a file, or writing into the underlying stream at its
current position without closing it); then mark the stream closed. -/

def closeStream (w : World) (i : Nat) : World :=
  let s := getStream w i
  if s.closed then w
  else
    let w' :=
      if s.wmode then
        match s.sink with
        | .file p => fsSet w p (applyFilter s.filter s.data)
        | .stream t => writeBytes w t (applyFilter s.filter s.data)
        | .none => w
      else w
    setStream w' i { getStream w' i with closed := true }

/-! ## The stream opener and the serialization facade -/

/-- Modelled from the spec: `utils.open_compression_stream` (missing from
the source tree), the Stream Opener of §4.3.  Given the effective path or
caller stream, the effective scheme and the mode, it opens or wraps the
appropriate stream and returns `(io_stream, arch, arcname, must_close)`:
raw schemes reuse the caller stream (ownership stays with the caller) or
open the file directly; filter schemes wrap the target with a compression
filter; the archive scheme constructs an archive handle plus a member
stream whose default name derives from the base filename (or `"default"`
for a pure buffer).  Underlying I/O errors (missing file) propagate
unchanged. -/

def open_compression_stream (path : Option String) (c : Comp)
    (stream : Option Nat) (mode : String) (w : World) :
    Except Err ((Nat × Option Nat × Option String × Bool) × World) :=
  let isRead := mode == "r" || mode == "rb"
  match stream with
  | some sid =>
    match c with
    | .nocomp | .pickle => .ok ((sid, none, none, false), w)
    | .zipfile =>
      if isRead then
        let src := getStream w sid
        let (aid, w1) := newStream w ⟨src.data.drop src.pos, 0, false, none, .none, false⟩
        let (mid, w2) := newStream w1
          ⟨src.data.drop src.pos, 0, false, some (.zipfile, some "default"), .none, false⟩
        .ok ((mid, some aid, some "default", true), w2)
      else
        let (aid, w1) := newStream w ⟨[], 0, false, none, .stream sid, true⟩
        let (mid, w2) := newStream w1
          ⟨[], 0, false, some (.zipfile, some "default"), .stream aid, true⟩
        .ok ((mid, some aid, some "default", true), w2)
    | .gzip | .bz2 | .lzma =>
      if isRead then
        let src := getStream w sid
        let (nid, w1) := newStream w
          ⟨src.data.drop src.pos, 0, false, some (c, none), .none, false⟩
        .ok ((nid, none, none, true), w1)
      else
        let (nid, w1) := newStream w ⟨[], 0, false, some (c, none), .stream sid, true⟩
        .ok ((nid, none, none, true), w1)
  | none =>
    match path with
    | none => .error .ioError
    | some p =>
      if isRead then
        match fsGet w p with
        | none => .error .ioError
        | some bs =>
          match c with
          | .nocomp | .pickle =>
            let (nid, w1) := newStream w ⟨bs, 0, false, none, .none, false⟩
            .ok ((nid, none, none, true), w1)
          | .zipfile =>
            let (aid, w1) := newStream w ⟨bs, 0, false, none, .none, false⟩
            let (mid, w2) := newStream w1
              ⟨bs, 0, false, some (.zipfile, some (arcnameOf p)), .none, false⟩
            .ok ((mid, some aid, some (arcnameOf p), true), w2)
          | .gzip | .bz2 | .lzma =>
            let (nid, w1) := newStream w ⟨bs, 0, false, some (c, none), .none, false⟩
            .ok ((nid, none, none, true), w1)
      else
        match c with
        | .nocomp | .pickle =>
          let (nid, w1) := newStream w ⟨[], 0, false, none, .file p, true⟩
          .ok ((nid, none, none, true), w1)
        | .zipfile =>
          let (aid, w1) := newStream w ⟨[], 0, false, none, .file p, true⟩
          let (mid, w2) := newStream w1
            ⟨[], 0, false, some (.zipfile, some (arcnameOf p)), .stream aid, true⟩
          .ok ((mid, some aid, some (arcnameOf p), true), w2)
        | .gzip | .bz2 | .lzma =>
          let (nid, w1) := newStream w ⟨[], 0, false, some (c, none), .file p, true⟩
          .ok ((nid, none, none, true), w1)

/-- Close the optional archive handle. -/

def closeArch (w : World) (arch : Option Nat) : World :=
  match arch with
  | none => w
  | some a => closeStream w a

/-- `pickle.load` against an open stream: a direct stream is parsed at its
current position (advancing it); a filter/member stream first decompresses
the remaining bytes through its envelope, then parses the payload. -/

def readObject (w : World) (i : Nat) : Except Err (PyObj × World) :=
  let s := getStream w i
  match s.filter with
  | none =>
    let rem := s.data.drop s.pos
    match pLoad rem.length rem with
    | none => .error .deserialization
    | some (o, rest) =>
      .ok (o, setStream w i { s with pos := s.pos + (rem.length - rest.length) })
  | some (c, arc) =>
    match decompressBytes c arc (s.data.drop s.pos) with
    | .error e => .error e
    | .ok plain =>
      match pLoad plain.length plain with
      | none => .error .deserialization
      | some (o, _) => .ok (o, setStream w i { s with pos := s.data.length })

/-- `compress_pickle.dump` (source lines 20–109): validate the compression,
resolve path and scheme, default the mode, open the stream, serialize into
it, and close the owned handles on every exit path (the `try/finally` at
lines 93–109; the stream is closed before the archive).  The serializer's
`protocol`/`fix_imports` options are passed through to the external
serializer and do not affect the model.  Returns the result, the final
world and the warnings emitted. -/

def dump (obj : PyObj) (path : PathArg) (compression : CompArg)
    (mode : Option String) (unhandled_extensions : String)
    (set_default_extension : Bool) (w : World) :
    Except Err Unit × World × List String :=
  match validate_compression compression true with
  | .error e => (.error e, w, [])
  | .ok _ =>
    match preprocess_path path compression unhandled_extensions set_default_extension with
    | .error e => (.error e, w, [])
    | .ok (path', comp, stream, warns) =>
      let m := mode.getD (get_compression_write_mode comp)
      match open_compression_stream path' comp stream m w with
      | .error e => (.error e, w, warns)
      | .ok ((io, arch, _arcname, must_close), w1) =>
        match pDump obj with
        | none =>
          (.error .serialization,
            if must_close then closeArch (closeStream w1 io) arch else w1, warns)
        | some bs =>
          let w2 := writeBytes w1 io bs
          (.ok (),
            if must_close then closeArch (closeStream w2 io) arch else w2, warns)

/-- `compress_pickle.load` (source lines 153–248): validate, resolve, default
the read mode, open the stream, deserialize from it, and close the owned
handles on every exit path (the `try/finally` at lines 231–247; the archive
is closed before the stream). -/

def load (path : PathArg) (compression : CompArg) (mode : Option String)
    (unhandled_extensions : String) (set_default_extension : Bool) (w : World) :
    Except Err PyObj × World × List String :=
  match validate_compression compression true with
  | .error e => (.error e, w, [])
  | .ok _ =>
    match preprocess_path path compression unhandled_extensions set_default_extension with
    | .error e => (.error e, w, [])
    | .ok (path', comp, stream, warns) =>
      let m := mode.getD (get_compression_read_mode comp)
      match open_compression_stream path' comp stream m w with
      | .error e => (.error e, w, warns)
      | .ok ((io, arch, _arcname, must_close), w1) =>
        match readObject w1 io with
        | .error e =>
          (.error e,
            if must_close then closeStream (closeArch w1 arch) io else w1, warns)
        | .ok (o, w2) =>
          (.ok o,
            if must_close then closeStream (closeArch w2 arch) io else w2, warns)

/-- `compress_pickle.dumps` (source lines 112–150): validate the compression
with `infer_is_valid=False`, dump into a fresh `io.BytesIO` with
`set_default_extension=False`, and return the buffer's contents.  The buffer
is not closed by `dumps`. -/

def dumps (obj : PyObj) (compression : CompArg) (w : World) :
    Except Err (List Nat) × World × List String :=
  match validate_compression compression false with
  | .error e => (.error e, w, [])
  | .ok c =>
    let (sid, w1) := newStream w (freshBuf [])
    match dump obj (.stream sid) c none "raise" false w1 with
    | (.error e, w2, warns) => (.error e, w2, warns)
    | (.ok _, w2, warns) => (.ok (getvalue w2 sid), w2, warns)

/-- `dumps` with the compression argument omitted: Python substitutes the
declared default `compression=None` (source line 112). -/

def dumpsNoCompressionArg (obj : PyObj) (w : World) :
    Except Err (List Nat) × World × List String :=
  dumps obj .pynone w

/-- `compress_pickle.loads` (source lines 251–304): validate the compression
with `infer_is_valid=False`, wrap the bytes in a fresh `io.BytesIO` and
delegate to `load`; the `with` block closes the buffer on every exit
path. -/

def loads (data : List Nat) (compression : CompArg) (w : World) :
    Except Err PyObj × World × List String :=
  match validate_compression compression false with
  | .error e => (.error e, w, [])
  | .ok _ =>
    let (sid, w1) := newStream w (freshBuf data)
    match load (.stream sid) compression none "raise" true w1 with
    | (r, w2, warns) => (r, closeStream w2 sid, warns)

/-- The compression arguments naming each registered scheme (spec §4.1),
the raw/uncompressed schemes included. -/

def registered_compression_args : List CompArg :=
  [.pynone, .str "pickle", .str "gzip", .str "bz2", .str "lzma", .str "zipfile"]

/-- The spec's description of save-to-bytes (§4.4), written from the spec's
words for comparison against the source's `dumps`: "Delegates to
save-to-path against an in-memory buffer and returns the buffer's final
contents", with extension normalization "forced disabled for pure-bytes
calls". -/

def dumps_specSide (obj : PyObj) (compression : CompArg) (w : World) :
    Except Err (List Nat) × World × List String :=
  let (sid, w1) := newStream w (freshBuf [])
  match dump obj (.stream sid) compression none "raise" false w1 with
  | (.error e, w2, warns) => (.error e, w2, warns)
  | (.ok _, w2, warns) => (.ok (getvalue w2 sid), w2, warns)

/-- The spec's description of load-from-bytes (§4.4), written from the
spec's words for comparison against the source's `loads`: "Wraps the input
byte sequence in an in-memory readable buffer and delegates to
load-from-path", returning the object `load` returns. -/

def loads_specSide (data : List Nat) (compression : CompArg) (w : World) :
    Except Err PyObj :=
  let (sid, w1) := newStream w (freshBuf data)
  (load (.stream sid) compression none "raise" true w1).1

/-! ## Theorems -/

theorem ofDigits_toDigits (fuel n : Nat) (h : n ≤ fuel) :
    ofDigits (toDigits fuel n) = n := by
  induction fuel generalizing n with
  | zero =>
    interval_cases n
    simp [toDigits, ofDigits]
  | succ f ih =>
    match n with
    | 0 => simp [toDigits, ofDigits]
    | n + 1 =>
      have hlt : (n + 1) / 256 < n + 1 := Nat.div_lt_self (Nat.succ_pos n) (by norm_num)
      have : (n + 1) / 256 ≤ f := by omega
      simp only [toDigits, ofDigits, ih _ this]
      omega

theorem decNat_encNat (n : Nat) (r : List Nat) :
    decNat (encNat n ++ r) = some (n, r) := by
  simp only [encNat, List.cons_append, decNat]
  rw [if_pos (by simp)]
  rw [List.take_left, List.drop_left]
  rw [ofDigits_toDigits n n (Nat.le_refl n)]

theorem decInt_encInt (i : Int) (r : List Nat) :
    decInt (encInt i ++ r) = some (i, r) := by
  by_cases h : 0 ≤ i
  · simp only [encInt, if_pos h, List.cons_append, decInt, decNat_encNat, Option.map_some]
    simp [Int.toNat_of_nonneg h]
  · simp only [encInt, if_neg h, List.cons_append, decInt, decNat_encNat, Option.map_some]
    have : ((-i).toNat : Int) = -i := Int.toNat_of_nonneg (by omega)
    simp [this]

theorem decChars_encChars (cs : List Char) (r : List Nat) :
    decChars cs.length (encChars cs ++ r) = some (cs, r) := by
  induction cs generalizing r with
  | nil => simp [decChars, encChars]
  | cons c cs ih =>
    simp [decChars, encChars, decNat_encNat, ih, Char.ofNat_toNat]

theorem decStr_encStr (s : String) (r : List Nat) :
    decStr (encStr s ++ r) = some (s, r) := by
  obtain ⟨cs⟩ := s
  have h := decChars_encChars cs r
  simp [decStr, encStr, decNat_encNat, h]

theorem pLoad_pDump (o : PyObj) (bs : List Nat) (h : pDump o = some bs) :
    ∀ fuel r, nodes o ≤ fuel → pLoad fuel (bs ++ r) = some (o, r) := by
  induction o generalizing bs with
  | pnone =>
    intro fuel r hf
    simp only [pDump, Option.some_inj] at h
    match fuel, hf with
    | f + 1, _ => subst h; simp [pLoad]
  | pbool b =>
    intro fuel r hf
    cases b <;> simp only [pDump, Option.some_inj] at h <;>
      (match fuel, hf with
       | f + 1, _ => subst h; simp [pLoad])
  | pint i =>
    intro fuel r hf
    simp only [pDump, Option.some_inj] at h
    match fuel, hf with
    | f + 1, _ => subst h; simp [pLoad, decInt_encInt]
  | pstr s =>
    intro fuel r hf
    simp only [pDump, Option.some_inj] at h
    match fuel, hf with
    | f + 1, _ => subst h; simp [pLoad, decStr_encStr]
  | ppair a b iha ihb =>
    intro fuel r hf
    simp only [pDump, Option.bind_eq_bind, Option.bind_eq_some] at h
    obtain ⟨ba, hba, bb, hbb, heq⟩ := h
    simp only [Option.some_inj] at heq
    subst heq
    simp only [nodes] at hf
    cases fuel with
    | zero => omega
    | succ f =>
      have ha' := iha ba hba f (bb ++ r) (by omega)
      have hb' := ihb bb hbb f r (by omega)
      show pLoad (f + 1) ((5 :: (ba ++ bb)) ++ r) = some (.ppair a b, r)
      rw [List.cons_append, List.append_assoc]
      simp only [pLoad]
      rw [ha']
      simp [hb']
  | unserializable =>
    intro fuel r hf
    simp [pDump] at h

theorem nodes_le_length (o : PyObj) (bs : List Nat) (h : pDump o = some bs) :
    nodes o ≤ bs.length := by
  induction o generalizing bs with
  | ppair a b iha ihb =>
    simp only [pDump, Option.bind_eq_bind, Option.bind_eq_some] at h
    obtain ⟨ba, hba, bb, hbb, heq⟩ := h
    simp only [Option.some_inj] at heq
    subst heq
    have := iha ba hba
    have := ihb bb hbb
    simp only [nodes, List.length_cons, List.length_append]
    omega
  | pnone => simp only [pDump, Option.some_inj] at h; subst h; simp [nodes]
  | pbool b =>
    cases b <;> simp only [pDump, Option.some_inj] at h <;> subst h <;> simp [nodes]
  | pint i => simp only [pDump, Option.some_inj] at h; subst h; simp [nodes]
  | pstr s => simp only [pDump, Option.some_inj] at h; subst h; simp [nodes]
  | unserializable => simp [pDump] at h

theorem decompress_compress (c : Comp) (arc : Option String) (bs : List Nat) :
    decompressBytes c arc (compressBytes c arc bs) = .ok bs := by
  cases c <;> simp [compressBytes, decompressBytes, decStr_encStr]

theorem setStream_length (w : World) (i : Nat) (s : StreamRec) :
    (setStream w i s).streams.length = w.streams.length := by
  simp [setStream]

theorem writeBytes_length (w : World) (i : Nat) (bs : List Nat) :
    (writeBytes w i bs).streams.length = w.streams.length := by
  simp [writeBytes, setStream_length]

theorem closeStream_length (w : World) (i : Nat) :
    (closeStream w i).streams.length = w.streams.length := by
  simp only [closeStream]
  split
  · rfl
  · rw [setStream_length]
    split
    · split <;> simp [fsSet, writeBytes_length]
    · rfl

theorem closeArch_length (w : World) (arch : Option Nat) :
    (closeArch w arch).streams.length = w.streams.length := by
  cases arch <;> simp [closeArch, closeStream_length]

theorem getStream_setStream_closed (w : World) (i j : Nat) (s : StreamRec) :
    (getStream (setStream w i s) j).closed =
      if i = j ∧ j < w.streams.length then s.closed else (getStream w j).closed := by
  unfold getStream setStream
  by_cases hj : j < w.streams.length
  · by_cases hij : i = j
    · subst hij
      simp [List.getD_eq_getElem?_getD, List.getElem?_set, hj]
    · simp [List.getD_eq_getElem?_getD, List.getElem?_set, hij, hj]
  · rw [if_neg (by tauto)]
    have h1 : w.streams.length ≤ j := Nat.le_of_not_lt hj
    simp only [List.getD_eq_getElem?_getD]
    rw [List.getElem?_eq_none (by simpa using h1),
      List.getElem?_eq_none (by simpa [List.length_set] using h1)]

theorem getStream_out_closed (w : World) (i : Nat) (h : w.streams.length ≤ i) :
    (getStream w i).closed = true := by
  unfold getStream
  rw [List.getD_eq_getElem?_getD, List.getElem?_eq_none (by simpa using h)]
  rfl

theorem getStream_writeBytes_closed (w : World) (i j : Nat) (bs : List Nat) :
    (getStream (writeBytes w i bs) j).closed = (getStream w j).closed := by
  simp only [writeBytes]
  rw [getStream_setStream_closed]
  split
  · next h => obtain ⟨h1, h2⟩ := h; subst h1; rfl
  · rfl

theorem getStream_fsSet_closed (w : World) (p : String) (bs : List Nat) (j : Nat) :
    (getStream (fsSet w p bs) j).closed = (getStream w j).closed := by
  simp [fsSet, getStream]

theorem getStream_setStream_self_closed (w : World) (i : Nat) (s : StreamRec)
    (hs : s.closed = true) : (getStream (setStream w i s) i).closed = true := by
  rw [getStream_setStream_closed]
  split
  · exact hs
  · next h =>
    push_neg at h
    exact getStream_out_closed _ i (h rfl)

theorem getStream_setStream_closed_of (w : World) (i j : Nat) (s : StreamRec)
    (hs : s.closed = true) (h : (getStream w j).closed = true) :
    (getStream (setStream w i s) j).closed = true := by
  rw [getStream_setStream_closed]
  split
  · exact hs
  · exact h

theorem closeStream_closes (w : World) (i : Nat) :
    (getStream (closeStream w i) i).closed = true := by
  simp only [closeStream]
  split
  · assumption
  · exact getStream_setStream_self_closed _ _ _ rfl

theorem closed_persists_closeStream (w : World) (i j : Nat)
    (h : (getStream w j).closed = true) :
    (getStream (closeStream w i) j).closed = true := by
  simp only [closeStream]
  split
  · exact h
  · apply getStream_setStream_closed_of _ _ _ _ rfl
    split
    · split
      · rw [getStream_fsSet_closed]; exact h
      · rw [getStream_writeBytes_closed]; exact h
      · exact h
    · exact h

theorem closed_persists_closeArch (w : World) (arch : Option Nat) (j : Nat)
    (h : (getStream w j).closed = true) :
    (getStream (closeArch w arch) j).closed = true := by
  cases arch with
  | none => exact h
  | some a => exact closed_persists_closeStream w a j h

theorem closeArch_closes (w : World) (a : Nat) :
    (getStream (closeArch w (some a)) a).closed = true :=
  closeStream_closes w a

theorem getStream_setStream (w : World) (i j : Nat) (s : StreamRec) :
    getStream (setStream w i s) j =
      if i = j ∧ j < w.streams.length then s else getStream w j := by
  unfold getStream setStream
  by_cases hj : j < w.streams.length
  · by_cases hij : i = j
    · subst hij
      simp [List.getD_eq_getElem?_getD, List.getElem?_set, hj]
    · simp [List.getD_eq_getElem?_getD, List.getElem?_set, hij, hj]
  · rw [if_neg (by tauto)]
    have h1 : w.streams.length ≤ j := Nat.le_of_not_lt hj
    simp only [List.getD_eq_getElem?_getD]
    rw [List.getElem?_eq_none (by simpa using h1),
      List.getElem?_eq_none (by simpa [List.length_set] using h1)]

/-- Claim C5: the bytes-based operations reject inference: `dumps` with
`compression="infer"` and `loads` with `compression="infer"` always fail
with `InvalidArgumentError`, leaving the world untouched. -/
theorem bytes_ops_reject_infer (o : PyObj) (d : List Nat) (w : World) :
    dumps o (.str "infer") w = (.error .invalidArgument, w, []) ∧
    loads d (.str "infer") w = (.error .invalidArgument, w, []) :=
  ⟨rfl, rfl⟩

/-- Claim C7: a compression argument that is neither `"infer"` nor a
registered scheme name makes `dump` and `load` fail with
`UnknownSchemeError` before any file or stream is opened or created: the
returned world is exactly the initial one. -/
theorem unknown_scheme_rejected (s : String) (hs : s ≠ "infer")
    (hc : compOfName s = none) (o : PyObj) (p : PathArg) (mode : Option String)
    (ue : String) (sde : Bool) (w : World) :
    dump o p (.str s) mode ue sde w = (.error (.unknownScheme s), w, []) ∧
    load p (.str s) mode ue sde w = (.error (.unknownScheme s), w, []) := by
  constructor <;> simp [dump, load, validate_compression, hc, hs]

/-- Witness for C7 at the unregistered name `"lz4"`. -/
theorem unknown_scheme_rejected_witness :
    dump .pnone (.path "f.gz") (.str "lz4") none "raise" true World.empty
        = (.error (.unknownScheme "lz4"), World.empty, []) ∧
    load (.path "f.gz") (.str "lz4") none "raise" true World.empty
        = (.error (.unknownScheme "lz4"), World.empty, []) :=
  unknown_scheme_rejected "lz4" (by decide) rfl .pnone (.path "f.gz") none
    "raise" true World.empty

/-- Claim C10: calling `dumps` with the compression argument omitted is not an
error: the argument defaults to `None`, the call succeeds and returns the
plain serialized bytes of the object. -/
theorem dumps_omitted_compression_defaults_none (o : PyObj) (bs : List Nat)
    (h : pDump o = some bs) :
    dumpsNoCompressionArg o World.empty = dumps o .pynone World.empty ∧
    (dumps o .pynone World.empty).1 = .ok bs := by
  refine ⟨rfl, ?_⟩
  simp [dumps, dump, validate_compression, preprocess_path, newStream, freshBuf,
    get_compression_write_mode, open_compression_stream, h, writeBytes, getvalue,
    getStream, setStream, World.empty]

/-- Witness for C10 at a concrete object. -/
theorem dumps_omitted_compression_defaults_none_witness :
    pDump (.pstr "a") = some [4, 1, 1, 1, 97] ∧
    (dumps (.pstr "a") .pynone World.empty).1 = .ok [4, 1, 1, 1, 97] :=
  ⟨rfl, (dumps_omitted_compression_defaults_none (.pstr "a") [4, 1, 1, 1, 97] rfl).2⟩

/-- Claim C6, counterexample: calling `dumps` with the scheme omitted does
not fail with `InvalidArgumentError`: Python substitutes the declared
default `compression=None` (source line 112) and the call succeeds,
returning the plain serialized bytes. -/
theorem dumps_omitted_scheme_does_not_fail :
    (dumpsNoCompressionArg (.pstr "a") World.empty).1 = .ok [4, 1, 1, 1, 97] := rfl

/-- Claim C6, amended: the scheme is not a required input of `dumps`: omitted,
it defaults to `None` and the call succeeds with the uncompressed serialized
bytes, which `loads` under the `None` scheme reads back.  (`loads` does
declare the scheme as a required positional parameter, so omitting it there
is a calling error, not an `InvalidArgumentError` raised by the library.) -/
theorem dumps_omitted_scheme_succeeds (o : PyObj) (bs : List Nat)
    (h : pDump o = some bs) :
    (dumpsNoCompressionArg o World.empty).1 = .ok bs ∧
    (loads bs .pynone World.empty).1 = .ok o := by
  have hload : pLoad bs.length bs = some (o, []) := by
    simpa using pLoad_pDump o bs h bs.length [] (nodes_le_length o bs h)
  constructor
  · simp [dumpsNoCompressionArg, dumps, dump, validate_compression, preprocess_path,
      newStream, freshBuf, get_compression_write_mode, open_compression_stream, h,
      writeBytes, getvalue, getStream, setStream, World.empty]
  · simp [loads, load, validate_compression, preprocess_path, newStream, freshBuf,
      get_compression_read_mode, open_compression_stream, readObject, getStream,
      setStream, closeStream, World.empty, hload]

/-- Witness for the amended C6 at a concrete object. -/
theorem dumps_omitted_scheme_succeeds_witness :
    pDump (.pbool true) = some [2] ∧
    (dumpsNoCompressionArg (.pbool true) World.empty).1 = .ok [2] ∧
    (loads [2] .pynone World.empty).1 = .ok (.pbool true) :=
  ⟨rfl, (dumps_omitted_scheme_succeeds (.pbool true) [2] rfl).1,
    (dumps_omitted_scheme_succeeds (.pbool true) [2] rfl).2⟩

/-- Claim C8: for every object and concrete registered scheme, `dumps` is
equivalent to running `dump` against a fresh empty in-memory buffer with
`set_default_extension=False` and returning that buffer's final contents. -/
theorem dumps_refines_dump_on_buffer (o : PyObj) (a : CompArg)
    (ha : a ∈ registered_compression_args) (w : World) :
    dumps o a w = dumps_specSide o a w := by
  simp only [registered_compression_args, List.mem_cons,
    List.not_mem_nil, or_false] at ha
  rcases ha with rfl | rfl | rfl | rfl | rfl | rfl <;> rfl

/-- Witness for C8 at a concrete object and scheme. -/
theorem dumps_refines_dump_on_buffer_witness :
    dumps (.pstr "a") (.str "gzip") World.empty
      = dumps_specSide (.pstr "a") (.str "gzip") World.empty :=
  dumps_refines_dump_on_buffer (.pstr "a") (.str "gzip") (by decide) World.empty

/-- Claim C9: for every byte sequence and concrete registered scheme, `loads`
is equivalent to wrapping the bytes in a fresh in-memory readable buffer and
calling `load` on that buffer with the same scheme, returning the object
`load` returns. -/
theorem loads_refines_load_on_buffer (d : List Nat) (a : CompArg)
    (ha : a ∈ registered_compression_args) (w : World) :
    (loads d a w).1 = loads_specSide d a w := by
  simp only [registered_compression_args, List.mem_cons,
    List.not_mem_nil, or_false] at ha
  rcases ha with rfl | rfl | rfl | rfl | rfl | rfl <;> rfl

/-- Witness for C9 at a concrete byte sequence and scheme. -/
theorem loads_refines_load_on_buffer_witness :
    (loads [31, 139, 2] (.str "gzip") World.empty).1
      = loads_specSide [31, 139, 2] (.str "gzip") World.empty :=
  loads_refines_load_on_buffer [31, 139, 2] (.str "gzip") (by decide) World.empty

/-- Claim C1: for every registered compression scheme (the raw/uncompressed
schemes included) and every serializable object, `loads (dumps o S) S`
returns the object back. -/
theorem loads_dumps_roundtrip (a : CompArg) (ha : a ∈ registered_compression_args)
    (o : PyObj) (bs : List Nat) (h : pDump o = some bs) :
    ∃ out, (dumps o a World.empty).1 = .ok out ∧
      (loads out a World.empty).1 = .ok o := by
  have hload : pLoad bs.length bs = some (o, []) := by
    simpa using pLoad_pDump o bs h bs.length [] (nodes_le_length o bs h)
  simp only [registered_compression_args, List.mem_cons,
    List.not_mem_nil, or_false] at ha
  rcases ha with rfl | rfl | rfl | rfl | rfl | rfl
  · exact ⟨bs, by
      simp [dumps, dump, validate_compression, preprocess_path, newStream, freshBuf,
        get_compression_write_mode, open_compression_stream, h, writeBytes, getvalue,
        getStream, setStream, World.empty], by
      simp [loads, load, validate_compression, preprocess_path, newStream, freshBuf,
        get_compression_read_mode, open_compression_stream, readObject, getStream,
        setStream, closeStream, World.empty, hload]⟩
  · exact ⟨bs, by
      simp [dumps, dump, validate_compression, preprocess_path, compOfName, newStream,
        freshBuf, get_compression_write_mode, open_compression_stream, h, writeBytes,
        getvalue, getStream, setStream, World.empty], by
      simp [loads, load, validate_compression, preprocess_path, compOfName, newStream,
        freshBuf, get_compression_read_mode, open_compression_stream, readObject,
        getStream, setStream, closeStream, World.empty, hload]⟩
  · exact ⟨31 :: 139 :: bs, by
      simp [dumps, dump, validate_compression, preprocess_path, compOfName, newStream,
        freshBuf, get_compression_write_mode, open_compression_stream, h, writeBytes,
        getvalue, getStream, setStream, closeStream, closeArch, applyFilter,
        compressBytes, World.empty], by
      simp [loads, load, validate_compression, preprocess_path, compOfName, newStream,
        freshBuf, get_compression_read_mode, open_compression_stream, readObject,
        getStream, setStream, closeStream, closeArch, decompressBytes, World.empty,
        hload]⟩
  · exact ⟨66 :: 90 :: 104 :: bs, by
      simp [dumps, dump, validate_compression, preprocess_path, compOfName, newStream,
        freshBuf, get_compression_write_mode, open_compression_stream, h, writeBytes,
        getvalue, getStream, setStream, closeStream, closeArch, applyFilter,
        compressBytes, World.empty], by
      simp [loads, load, validate_compression, preprocess_path, compOfName, newStream,
        freshBuf, get_compression_read_mode, open_compression_stream, readObject,
        getStream, setStream, closeStream, closeArch, decompressBytes, World.empty,
        hload]⟩
  · exact ⟨253 :: 55 :: 122 :: 88 :: 90 :: 0 :: bs, by
      simp [dumps, dump, validate_compression, preprocess_path, compOfName, newStream,
        freshBuf, get_compression_write_mode, open_compression_stream, h, writeBytes,
        getvalue, getStream, setStream, closeStream, closeArch, applyFilter,
        compressBytes, World.empty], by
      simp [loads, load, validate_compression, preprocess_path, compOfName, newStream,
        freshBuf, get_compression_read_mode, open_compression_stream, readObject,
        getStream, setStream, closeStream, closeArch, decompressBytes, World.empty,
        hload]⟩
  · exact ⟨80 :: 75 :: (encStr "default" ++ bs), by
      simp [dumps, dump, validate_compression, preprocess_path, compOfName, newStream,
        freshBuf, get_compression_write_mode, open_compression_stream, h, writeBytes,
        getvalue, getStream, setStream, closeStream, closeArch, applyFilter,
        compressBytes, World.empty], by
      simp [loads, load, validate_compression, preprocess_path, compOfName, newStream,
        freshBuf, get_compression_read_mode, open_compression_stream, readObject,
        getStream, setStream, closeStream, closeArch, decompressBytes, decStr_encStr,
        World.empty, hload]⟩

/-- Witness for C1 at a concrete scheme and object. -/
theorem loads_dumps_roundtrip_witness :
    (.str "gzip" : CompArg) ∈ registered_compression_args ∧
    pDump (.pstr "hi") = some [4, 1, 2, 1, 104, 1, 105] ∧
    ∃ out, (dumps (.pstr "hi") (.str "gzip") World.empty).1 = .ok out ∧
      (loads out (.str "gzip") World.empty).1 = .ok (.pstr "hi") :=
  ⟨by decide, rfl,
    loads_dumps_roundtrip (.str "gzip") (by decide) (.pstr "hi")
      [4, 1, 2, 1, 104, 1, 105] rfl⟩

/-- Claim C3: an already-open stream supplied as the `path` argument to `dump`
with a concrete registered scheme is still open after `dump` returns, and
its position sits right after the data `dump` appended; only `data` and
`pos` change. -/
theorem dump_leaves_caller_stream_open (a : CompArg)
    (ha : a ∈ registered_compression_args) (o : PyObj) (bs : List Nat)
    (h : pDump o = some bs) (s₀ : StreamRec) (hopen : s₀.closed = false)
    (hpos : s₀.pos = s₀.data.length) (fs : List (String × List Nat)) :
    (dump o (.stream 0) a none "raise" true ⟨fs, [s₀]⟩).1 = .ok () ∧
    ∃ out,
      getStream (dump o (.stream 0) a none "raise" true ⟨fs, [s₀]⟩).2.1 0 =
        { s₀ with data := s₀.data ++ out, pos := s₀.data.length + out.length } ∧
      (getStream (dump o (.stream 0) a none "raise" true ⟨fs, [s₀]⟩).2.1 0).closed
        = false := by
  have hd : ∀ n, s₀.data.drop (s₀.data.length + n) = [] := fun n =>
    List.drop_eq_nil_of_le (Nat.le_add_right _ _)
  simp only [registered_compression_args, List.mem_cons,
    List.not_mem_nil, or_false] at ha
  rcases ha with rfl | rfl | rfl | rfl | rfl | rfl
  · refine ⟨by simp [dump, validate_compression, preprocess_path,
      get_compression_write_mode, open_compression_stream, h], bs, ?_, ?_⟩ <;>
      simp [dump, validate_compression, preprocess_path, get_compression_write_mode,
        open_compression_stream, h, writeBytes, getStream, setStream, hpos, hd, hopen]
  · refine ⟨by simp [dump, validate_compression, preprocess_path, compOfName,
      get_compression_write_mode, open_compression_stream, h], bs, ?_, ?_⟩ <;>
      simp [dump, validate_compression, preprocess_path, compOfName,
        get_compression_write_mode, open_compression_stream, h, writeBytes, getStream,
        setStream, hpos, hd, hopen]
  · refine ⟨by simp [dump, validate_compression, preprocess_path, compOfName,
      get_compression_write_mode, open_compression_stream, h, writeBytes, getStream,
      setStream, newStream, closeStream, closeArch, applyFilter, compressBytes],
      31 :: 139 :: bs, ?_, ?_⟩ <;>
      simp [dump, validate_compression, preprocess_path, compOfName,
        get_compression_write_mode, open_compression_stream, h, writeBytes, getStream,
        setStream, newStream, closeStream, closeArch, applyFilter, compressBytes,
        hpos, hd, hopen]
  · refine ⟨by simp [dump, validate_compression, preprocess_path, compOfName,
      get_compression_write_mode, open_compression_stream, h, writeBytes, getStream,
      setStream, newStream, closeStream, closeArch, applyFilter, compressBytes],
      66 :: 90 :: 104 :: bs, ?_, ?_⟩ <;>
      simp [dump, validate_compression, preprocess_path, compOfName,
        get_compression_write_mode, open_compression_stream, h, writeBytes, getStream,
        setStream, newStream, closeStream, closeArch, applyFilter, compressBytes,
        hpos, hd, hopen]
  · refine ⟨by simp [dump, validate_compression, preprocess_path, compOfName,
      get_compression_write_mode, open_compression_stream, h, writeBytes, getStream,
      setStream, newStream, closeStream, closeArch, applyFilter, compressBytes],
      253 :: 55 :: 122 :: 88 :: 90 :: 0 :: bs, ?_, ?_⟩ <;>
      simp [dump, validate_compression, preprocess_path, compOfName,
        get_compression_write_mode, open_compression_stream, h, writeBytes, getStream,
        setStream, newStream, closeStream, closeArch, applyFilter, compressBytes,
        hpos, hd, hopen]
  · refine ⟨by simp [dump, validate_compression, preprocess_path, compOfName,
      get_compression_write_mode, open_compression_stream, h, writeBytes, getStream,
      setStream, newStream, closeStream, closeArch, applyFilter, compressBytes],
      80 :: 75 :: (encStr "default" ++ bs), ?_, ?_⟩ <;>
      simp [dump, validate_compression, preprocess_path, compOfName,
        get_compression_write_mode, open_compression_stream, h, writeBytes, getStream,
        setStream, newStream, closeStream, closeArch, applyFilter, compressBytes,
        hpos, hd, hopen]

/-- Witness for C3 at a concrete scheme, object and open stream. -/
theorem dump_leaves_caller_stream_open_witness :
    (dump (.pbool true) (.stream 0) (.str "gzip") none "raise" true
        ⟨[], [freshBuf []]⟩).1 = .ok () ∧
    ∃ out,
      getStream (dump (.pbool true) (.stream 0) (.str "gzip") none "raise" true
          ⟨[], [freshBuf []]⟩).2.1 0 =
        { (freshBuf []) with
          data := (freshBuf []).data ++ out,
          pos := (freshBuf []).data.length + out.length } ∧
      (getStream (dump (.pbool true) (.stream 0) (.str "gzip") none "raise" true
          ⟨[], [freshBuf []]⟩).2.1 0).closed = false :=
  dump_leaves_caller_stream_open (.str "gzip") (by decide) (.pbool true) [2] rfl
    (freshBuf []) rfl rfl []

/-- Claim C4: on a path whose extension matches no registered scheme,
`dump` and `load` under `compression="infer"` follow the
`unhandled_extensions` policy: `"raise"` fails with
`UnrecognizedExtensionError` (the world untouched for `dump`), `"ignore"`
succeeds using the raw/uncompressed scheme (the file holds exactly the
plain serialized bytes; `load` reads the object back) with no warning, and
`"warn"` succeeds the same way while emitting exactly one warning. -/
theorem unhandled_extension_policy (p : String)
    (hp : compOfExtension (extOf p) = none) (o : PyObj) (bs : List Nat)
    (h : pDump o = some bs) (fs : List (String × List Nat)) :
    (dump o (.path p) (.str "infer") none "raise" true ⟨fs, []⟩)
        = (.error (.unrecognizedExtension (extOf p)), ⟨fs, []⟩, []) ∧
    (dump o (.path p) (.str "infer") none "ignore" true ⟨fs, []⟩).1 = .ok () ∧
    fsGet (dump o (.path p) (.str "infer") none "ignore" true ⟨fs, []⟩).2.1 p
        = some bs ∧
    (dump o (.path p) (.str "infer") none "ignore" true ⟨fs, []⟩).2.2 = [] ∧
    (dump o (.path p) (.str "infer") none "warn" true ⟨fs, []⟩).1 = .ok () ∧
    fsGet (dump o (.path p) (.str "infer") none "warn" true ⟨fs, []⟩).2.1 p
        = some bs ∧
    (dump o (.path p) (.str "infer") none "warn" true ⟨fs, []⟩).2.2.length = 1 ∧
    (load (.path p) (.str "infer") none "raise" true ⟨fs, []⟩).1
        = .error (.unrecognizedExtension (extOf p)) ∧
    (load (.path p) (.str "infer") none "ignore" true ⟨(p, bs) :: fs, []⟩).1
        = .ok o ∧
    (load (.path p) (.str "infer") none "ignore" true ⟨(p, bs) :: fs, []⟩).2.2
        = [] ∧
    (load (.path p) (.str "infer") none "warn" true ⟨(p, bs) :: fs, []⟩).1
        = .ok o ∧
    (load (.path p) (.str "infer") none "warn" true ⟨(p, bs) :: fs, []⟩).2.2.length
        = 1 := by
  have hload : pLoad bs.length bs = some (o, []) := by
    simpa using pLoad_pDump o bs h bs.length [] (nodes_le_length o bs h)
  refine ⟨?_, ?_, ?_, ?_, ?_, ?_, ?_, ?_, ?_, ?_, ?_, ?_⟩ <;>
    simp [dump, load, validate_compression, preprocess_path, hp, h, hload,
      get_compression_write_mode, get_compression_read_mode,
      open_compression_stream, newStream, getStream, setStream, writeBytes,
      closeStream, closeArch, applyFilter, readObject, fsGet, fsSet]

/-- Witness for C4 at a concrete path, object and file system. -/
theorem unhandled_extension_policy_witness :
    (dump (.pbool false) (.path "f.xyz") (.str "infer") none "raise" true ⟨[], []⟩)
        = (.error (.unrecognizedExtension (extOf "f.xyz")), ⟨[], []⟩, []) ∧
    (load (.path "f.xyz") (.str "infer") none "ignore" true
        ⟨[("f.xyz", [1])], []⟩).1 = .ok (.pbool false) :=
  ⟨(unhandled_extension_policy "f.xyz" rfl (.pbool false) [1] rfl []).1,
    (unhandled_extension_policy "f.xyz" rfl (.pbool false) [1] rfl
      []).2.2.2.2.2.2.2.2.1⟩

/-- Every stream `open_compression_stream` creates (an index live in the
returned world but not in the initial one) is one of the reported handles —
the io stream or the archive — and in that case the ownership flag
`must_close` is set. -/
theorem open_new_streams_spec (path : Option String) (c : Comp)
    (stream : Option Nat) (mode : String) (w : World) (io : Nat)
    (arch : Option Nat) (arc : Option String) (mc : Bool) (w' : World)
    (h : open_compression_stream path c stream mode w
      = .ok ((io, arch, arc, mc), w')) :
    ∀ i, w.streams.length ≤ i → i < w'.streams.length →
      mc = true ∧ (io = i ∨ arch = some i) := by
  cases stream with
  | some sid =>
    cases c <;>
      simp only [open_compression_stream, newStream, List.length_append,
        List.length_cons, List.length_nil] at h <;>
      (try split at h) <;>
      · simp only [Except.ok.injEq, Prod.mk.injEq] at h
        obtain ⟨⟨hio, harch, harc, hmc⟩, hw⟩ := h
        subst_vars
        intro i h1 h2
        try simp at h2
        first
        | omega
        | (refine ⟨rfl, ?_⟩
           first
           | (left; omega)
           | (rcases (show i = w.streams.length ∨ i = w.streams.length + 1
                from by omega) with rfl | rfl
              · right; rfl
              · left; omega))
  | none =>
    cases path with
    | none =>
      simp only [open_compression_stream] at h
      exact Except.noConfusion h
    | some p =>
      cases c <;>
        simp only [open_compression_stream, newStream, List.length_append,
          List.length_cons, List.length_nil] at h <;>
        (try split at h) <;> (try split at h) <;>
        first
        | exact Except.noConfusion h
        | · simp only [Except.ok.injEq, Prod.mk.injEq] at h
            obtain ⟨⟨hio, harch, harc, hmc⟩, hw⟩ := h
            subst_vars
            intro i h1 h2
            try simp at h2
            first
            | omega
            | (refine ⟨rfl, ?_⟩
               first
               | (left; omega)
               | (rcases (show i = w.streams.length ∨ i = w.streams.length + 1
                    from by omega) with rfl | rfl
                  · right; rfl
                  · left; omega))

/-- `readObject` never creates or destroys streams. -/
theorem readObject_ok_length (w : World) (i : Nat) (o : PyObj) (w' : World)
    (h : readObject w i = .ok (o, w')) :
    w'.streams.length = w.streams.length := by
  simp only [readObject] at h
  repeat' split at h
  all_goals first
    | exact Except.noConfusion h
    | · simp only [Except.ok.injEq, Prod.mk.injEq] at h
        obtain ⟨-, hw⟩ := h
        subst hw
        exact setStream_length _ _ _

/-- Claim C2: for every call to `dump` or `load` — any object, target,
compression argument, mode, policy and initial world — every stream or
archive handle the call opened internally (any stream index live after the
call but not before it) is closed when the call returns, on every exit
path, the error paths included. -/
theorem internally_opened_handles_closed :
    (∀ (o : PyObj) (p : PathArg) (a : CompArg) (mode : Option String)
       (ue : String) (sde : Bool) (w : World) (i : Nat),
       w.streams.length ≤ i →
       i < (dump o p a mode ue sde w).2.1.streams.length →
       (getStream (dump o p a mode ue sde w).2.1 i).closed = true) ∧
    (∀ (p : PathArg) (a : CompArg) (mode : Option String) (ue : String)
       (sde : Bool) (w : World) (i : Nat),
       w.streams.length ≤ i →
       i < (load p a mode ue sde w).2.1.streams.length →
       (getStream (load p a mode ue sde w).2.1 i).closed = true) := by
  constructor
  · intro o p a mode ue sde w i h1 h2
    cases hv : validate_compression a true with
    | error e => simp only [dump, hv] at h2 ⊢; omega
    | ok c0 =>
      cases hpre : preprocess_path p a ue sde with
      | error e => simp only [dump, hv, hpre] at h2 ⊢; omega
      | ok quad =>
        obtain ⟨path', comp, stream, warns⟩ := quad
        cases hopen : open_compression_stream path' comp stream
            (mode.getD (get_compression_write_mode comp)) w with
        | error e => simp only [dump, hv, hpre, hopen] at h2 ⊢; omega
        | ok res =>
          obtain ⟨⟨io, arch, arc, mc⟩, w1⟩ := res
          have hspec := open_new_streams_spec _ _ _ _ _ _ _ _ _ _ hopen
          cases hpd : pDump o with
          | none =>
            simp only [dump, hv, hpre, hopen, hpd] at h2 ⊢
            cases mc with
            | false =>
              simp only [Bool.false_eq_true, if_false] at h2 ⊢
              obtain ⟨hmc, -⟩ := hspec i h1 h2
              simp at hmc
            | true =>
              simp only [if_true] at h2 ⊢
              rw [closeArch_length, closeStream_length] at h2
              obtain ⟨-, hcase⟩ := hspec i h1 h2
              rcases hcase with rfl | harch
              · exact closed_persists_closeArch _ _ _ (closeStream_closes w1 io)
              · subst harch
                exact closeStream_closes _ i
          | some bs =>
            simp only [dump, hv, hpre, hopen, hpd] at h2 ⊢
            cases mc with
            | false =>
              simp only [Bool.false_eq_true, if_false] at h2 ⊢
              rw [writeBytes_length] at h2
              obtain ⟨hmc, -⟩ := hspec i h1 h2
              simp at hmc
            | true =>
              simp only [if_true] at h2 ⊢
              rw [closeArch_length, closeStream_length, writeBytes_length] at h2
              obtain ⟨-, hcase⟩ := hspec i h1 h2
              rcases hcase with rfl | harch
              · exact closed_persists_closeArch _ _ _
                  (closeStream_closes (writeBytes w1 io bs) io)
              · subst harch
                exact closeStream_closes _ i
  · intro p a mode ue sde w i h1 h2
    cases hv : validate_compression a true with
    | error e => simp only [load, hv] at h2 ⊢; omega
    | ok c0 =>
      cases hpre : preprocess_path p a ue sde with
      | error e => simp only [load, hv, hpre] at h2 ⊢; omega
      | ok quad =>
        obtain ⟨path', comp, stream, warns⟩ := quad
        cases hopen : open_compression_stream path' comp stream
            (mode.getD (get_compression_read_mode comp)) w with
        | error e => simp only [load, hv, hpre, hopen] at h2 ⊢; omega
        | ok res =>
          obtain ⟨⟨io, arch, arc, mc⟩, w1⟩ := res
          have hspec := open_new_streams_spec _ _ _ _ _ _ _ _ _ _ hopen
          cases hread : readObject w1 io with
          | error e =>
            simp only [load, hv, hpre, hopen, hread] at h2 ⊢
            cases mc with
            | false =>
              simp only [Bool.false_eq_true, if_false] at h2 ⊢
              obtain ⟨hmc, -⟩ := hspec i h1 h2
              simp at hmc
            | true =>
              simp only [if_true] at h2 ⊢
              rw [closeStream_length, closeArch_length] at h2
              obtain ⟨-, hcase⟩ := hspec i h1 h2
              rcases hcase with rfl | harch
              · exact closeStream_closes _ io
              · subst harch
                exact closed_persists_closeStream _ _ _ (closeArch_closes w1 i)
          | ok pair =>
            obtain ⟨o, w2⟩ := pair
            have hlen2 := readObject_ok_length w1 io o w2 hread
            simp only [load, hv, hpre, hopen, hread] at h2 ⊢
            cases mc with
            | false =>
              simp only [Bool.false_eq_true, if_false] at h2 ⊢
              rw [hlen2] at h2
              obtain ⟨hmc, -⟩ := hspec i h1 h2
              simp at hmc
            | true =>
              simp only [if_true] at h2 ⊢
              rw [closeStream_length, closeArch_length, hlen2] at h2
              obtain ⟨-, hcase⟩ := hspec i h1 h2
              rcases hcase with rfl | harch
              · exact closeStream_closes _ io
              · subst harch
                exact closed_persists_closeStream _ _ _ (closeArch_closes w2 i)

/-- Witness for C2: a `dump` whose serialization step fails (so the finally
path runs) and a `load`, each on a path target that opens a handle
internally; the handle (index 0, fresh in the empty-stream worlds) is
closed after the call. -/
theorem internally_opened_handles_closed_witness :
    (getStream (dump .unserializable (.path "f.gz") (.str "gzip") none "raise"
        true World.empty).2.1 0).closed = true ∧
    (getStream (load (.path "f.gz") (.str "gzip") none "raise" true
        ⟨[("f.gz", [31, 139, 2])], []⟩).2.1 0).closed = true :=
  ⟨internally_opened_handles_closed.1 .unserializable (.path "f.gz")
      (.str "gzip") none "raise" true World.empty 0 (by decide) (by decide),
    internally_opened_handles_closed.2 (.path "f.gz") (.str "gzip") none
      "raise" true ⟨[("f.gz", [31, 139, 2])], []⟩ 0 (by decide) (by decide)⟩

end CompressPickle
